import Mathlib

/-!
Verification of the RaeenOS agent dependency checker
(`tools/agent-coordination/dependency-checker.py`).

The Python source is shallowly embedded below.  Conventions used throughout:

* File reading is modelled by an oracle `String → Option String` mapping a
  path to its content (`none` = the file cannot be read), matching the
  spec's `readFile(path) -> bytes | NotFound` collaborator.
* Python `logging` calls are modelled as explicit `LogEntry` outputs.
* Python `dict` values are modelled as association lists that preserve
  insertion order (Python 3.7+ dict semantics).
* Python `set` values whose iteration order is unspecified are modelled as
  duplicate-free lists in first-insertion order; every theorem below that
  depends on such a set only uses order-insensitive facts (membership,
  counts) or sets with at most one element.
* The four `re` patterns of the source are each a concatenation of
  character-class/literal chunks with `*`/`+`/`1` multiplicities; the
  engine below implements Python's leftmost, greedy-with-backtracking,
  non-overlapping `finditer` semantics for exactly that fragment.
-/

/-- Python `pre.isPrefixOf`-style `s.startswith(pre)`. -/
def startsWithB (s pre : String) : Bool := pre.data.isPrefixOf s.data

/-- Python `s.endswith(suf)`. -/
def endsWithB (s suf : String) : Bool := suf.data.isSuffixOf s.data

/-- Python `'/' in s` (character containment). -/
def hasSlash (s : String) : Bool := decide ('/' ∈ s.data)

/-- Python `needle in haystack` for strings: contiguous subsequence test. -/
def segIn (needle : List Char) : List Char → Bool
  | [] => needle.isEmpty
  | c :: rest => needle.isPrefixOf (c :: rest) || segIn needle rest

/-- String-level contiguous containment, Python `needle in hay`. -/
def containsSeg (hay needle : String) : Bool := segIn needle.data hay.data

/-- Characters of the final path component, used for Python `Path(p).name`:
everything after the last slash. -/
def pathNameAux : List Char → List Char → List Char
  | [], acc => acc.reverse
  | '/' :: rest, _ => pathNameAux rest []
  | c :: rest, acc => pathNameAux rest (c :: acc)

/-- Python `Path(p).name`: the final path component. -/
def pathName (p : String) : String := ⟨pathNameAux p.data []⟩

/-- Python `Path(p).stem`: the final component without its last extension;
a dot at the very start of the name does not begin an extension. -/
def pathStem (p : String) : String :=
  let cs := (pathName p).data
  if (cs.drop 1).contains '.' then
    ⟨(((cs.reverse).dropWhile (fun c => c ≠ '.')).drop 1).reverse⟩
  else ⟨cs⟩

/-! ### A matcher for the source's regular expressions

Each of the source's four patterns is a concatenation of chunks; a chunk is
a character class with multiplicity one, `*` (greedy) or `+` (greedy), and
an optional capture-group tag. -/

/-- Multiplicity of a regex chunk. -/
inductive RMod
  | one
  | star
  | plus
deriving Repr, DecidableEq

/-- One chunk of a pattern: a character class, its multiplicity and the
capture group (if any) its consumed text belongs to. -/
structure RChunk where
  cls : Char → Bool
  mod : RMod
  group : Option Nat := none

/-- Captured text per chunk: the group tag together with the consumed
characters, in chunk order. -/
abbrev Caps := List (Option Nat × List Char)

/-- Length of the longest run of class characters at the front of `s`
(the greedy first attempt of `*`/`+`). -/
def charRunLen (cls : Char → Bool) : List Char → Nat
  | [] => 0
  | c :: cs => if cls c then charRunLen cls cs + 1 else 0

/-- `[hi, hi-1, ..., lo]`: the backtracking order of a greedy quantifier. -/
def countsDown (hi lo : Nat) : List Nat :=
  (List.range (hi + 1 - lo)).map (fun i => hi - i)

/-- First successful alternative, in order: the backtracking search. -/
def firstSome {α β : Type} : List α → (α → Option β) → Option β
  | [], _ => none
  | k :: ks, f => match f k with
    | some r => some r
    | none => firstSome ks f

/-- Match a chunk list at the front of `s`, returning the unconsumed suffix
and per-chunk captures.  Greedy quantifiers try the longest count first and
backtrack (Python `re` semantics on this fragment).  `fuel` only bounds the
chunk-list recursion depth; `chunks.length + 1` is always sufficient. -/
def matchChunks : Nat → List RChunk → List Char → Option (List Char × Caps)
  | 0, _, _ => none
  | _ + 1, [], s => some (s, [])
  | fuel + 1, ch :: rest, s =>
    match ch.mod with
    | .one =>
      match s with
      | [] => none
      | c :: cs =>
        if ch.cls c then
          (matchChunks fuel rest cs).map (fun r => (r.1, (ch.group, [c]) :: r.2))
        else none
    | .star =>
      firstSome (countsDown (charRunLen ch.cls s) 0) (fun k =>
        (matchChunks fuel rest (s.drop k)).map
          (fun r => (r.1, (ch.group, s.take k) :: r.2)))
    | .plus =>
      let run := charRunLen ch.cls s
      if run = 0 then none
      else
        firstSome (countsDown run 1) (fun k =>
          (matchChunks fuel rest (s.drop k)).map
            (fun r => (r.1, (ch.group, s.take k) :: r.2)))

/-- Match a whole pattern at the front of `s`. -/
def matchChunksFull (chunks : List RChunk) (s : List Char) :
    Option (List Char × Caps) :=
  matchChunks (chunks.length + 1) chunks s

/-- Scan of `re.finditer`: repeatedly find the leftmost match, then continue
after it (non-overlapping); on a zero-width match or a failure, advance one
character.  `fuel = s.length + 1` suffices since every step shortens `s`. -/
def findIterAux (chunks : List RChunk) : Nat → List Char → List Caps
  | 0, _ => []
  | fuel + 1, s =>
    match matchChunksFull chunks s with
    | some (rem, caps) =>
      if rem.length < s.length then caps :: findIterAux chunks fuel rem
      else
        caps :: (match s with
          | [] => []
          | _ :: t => findIterAux chunks fuel t)
    | none =>
      match s with
      | [] => []
      | _ :: t => findIterAux chunks fuel t

/-- All matches of a pattern in `s`, leftmost and non-overlapping. -/
def findIter (chunks : List RChunk) (s : List Char) : List Caps :=
  findIterAux chunks (s.length + 1) s

/-- Text of capture group `g`: concatenation of the consumed text of the
chunks tagged with `g`, in chunk order. -/
def capsGroup (g : Nat) (caps : Caps) : List Char :=
  caps.foldr (fun e acc => if e.1 == some g then e.2 ++ acc else acc) []

/-- `match.group(g)` for every match of the pattern in `content`. -/
def findGroups (chunks : List RChunk) (g : Nat) (content : String) :
    List String :=
  (findIter chunks content.data).map (fun caps => ⟨capsGroup g caps⟩)

/-! ### The source's character classes and patterns -/

/-- Python `\s` over the ASCII range. -/
def wsCls (c : Char) : Bool :=
  c == ' ' || c == '\t' || c == '\n' || c == '\r' ||
  c == Char.ofNat 11 || c == Char.ofNat 12

/-- `[a-zA-Z_]`. -/
def alphaU (c : Char) : Bool :=
  ('a' ≤ c && c ≤ 'z') || ('A' ≤ c && c ≤ 'Z') || c == '_'

/-- `[a-zA-Z0-9_]`. -/
def alnumU (c : Char) : Bool := alphaU c || ('0' ≤ c && c ≤ '9')

/-- `[A-Z_]`. -/
def upperU (c : Char) : Bool := ('A' ≤ c && c ≤ 'Z') || c == '_'

/-- `[A-Z0-9_]`. -/
def upperNumU (c : Char) : Bool := upperU c || ('0' ≤ c && c ≤ '9')

/-- A literal character chunk. -/
def lit (c : Char) : RChunk := ⟨(· == c), .one, none⟩

/-- A literal character chunk belonging to capture group `g`. -/
def litG (g : Nat) (c : Char) : RChunk := ⟨(· == c), .one, some g⟩

/-- A literal string as a chunk sequence. -/
def lits (s : String) : List RChunk := s.data.map lit

/-- `self.function_pattern`:
`\s*([a-zA-Z_][a-zA-Z0-9_]*\s+[*]*)\s*([a-zA-Z_][a-zA-Z0-9_]*)\s*\([^)]*\)\s*;` -/
def function_pattern : List RChunk :=
  [⟨wsCls, .star, none⟩,
   ⟨alphaU, .one, some 1⟩, ⟨alnumU, .star, some 1⟩,
   ⟨wsCls, .plus, some 1⟩, ⟨(· == '*'), .star, some 1⟩,
   ⟨wsCls, .star, none⟩,
   ⟨alphaU, .one, some 2⟩, ⟨alnumU, .star, some 2⟩,
   ⟨wsCls, .star, none⟩,
   lit '(', ⟨(· != ')'), .star, none⟩, lit ')',
   ⟨wsCls, .star, none⟩, lit ';']

/-- `self.struct_pattern`: `typedef\s+struct\s+([a-zA-Z_][a-zA-Z0-9_]*)\s*{` -/
def struct_pattern : List RChunk :=
  lits "typedef" ++ [⟨wsCls, .plus, none⟩] ++
  lits "struct" ++ [⟨wsCls, .plus, none⟩,
    ⟨alphaU, .one, some 1⟩, ⟨alnumU, .star, some 1⟩,
    ⟨wsCls, .star, none⟩, lit (Char.ofNat 123)]

/-- `self.define_pattern`: `#define\s+([A-Z_][A-Z0-9_]*)\s+` -/
def define_pattern : List RChunk :=
  lits "#define" ++ [⟨wsCls, .plus, none⟩,
    ⟨upperU, .one, some 1⟩, ⟨upperNumU, .star, some 1⟩,
    ⟨wsCls, .plus, none⟩]

/-- `self.include_pattern` of `InterfaceParser`: `#include\s+[<"]([^>"]+)[>"]` -/
def include_pattern : List RChunk :=
  lits "#include" ++ [⟨wsCls, .plus, none⟩,
    ⟨(fun c => c == '<' || c == '"'), .one, none⟩,
    ⟨(fun c => c != '>' && c != '"'), .plus, some 1⟩,
    ⟨(fun c => c == '>' || c == '"'), .one, none⟩]

/-- The local `include_pattern` of `analyze_component_interfaces`:
`#include\s+[<"]([^>"]+\.h)[>"]` -/
def analyzer_include_pattern : List RChunk :=
  lits "#include" ++ [⟨wsCls, .plus, none⟩,
    ⟨(fun c => c == '<' || c == '"'), .one, none⟩,
    ⟨(fun c => c != '>' && c != '"'), .plus, some 1⟩,
    litG 1 '.', litG 1 'h',
    ⟨(fun c => c == '>' || c == '"'), .one, none⟩]

/-! ### Data model (`@dataclass` definitions of the source) -/

/-- `InterfaceDefinition`: structural descriptor of one header file. -/
structure InterfaceDefinition where
  name : String
  file_path : String
  functions : List String := []
  structures : List String := []
  constants : List String := []
  version : String := "1.0.0"
  dependencies : List String := []
deriving Repr, DecidableEq

/-- `AgentComponent`: a component owned by an agent. -/
structure AgentComponent where
  name : String
  agent_type : String
  file_paths : List String := []
  interfaces_provided : List String := []
  interfaces_required : List String := []
  dependencies : List String := []
deriving Repr, DecidableEq

/-- `DependencyIssue`: one validation finding. -/
structure DependencyIssue where
  severity : String
  component : String
  interface : String
  message : String
  file_path : Option String := none
  line_number : Option Nat := none
deriving Repr, DecidableEq

/-- One `logging` call, modelled as data. -/
structure LogEntry where
  level : String
  message : String
deriving Repr, DecidableEq

/-! ### `InterfaceParser.parse_header_file` (source lines 63-99)

Reading the file is modelled by the `content?` argument (`none` = the
`open`/`read` raised).  The `except` branch logs at **error** level and
still returns the descriptor built so far (only the name and path, since
the read is the first statement of the `try` block). -/

/-- Message of the `logger.error` call in the `except` branch. -/
def failedParseMsg (file_path : String) : String :=
  "Failed to parse " ++ file_path

/-- `parse_header_file`: extract functions, structures, constants and
include-dependencies from a header's content; on an unreadable file log an
error and return the otherwise-empty descriptor. -/
def parse_header_file (file_path : String) (content? : Option String) :
    InterfaceDefinition × List LogEntry :=
  let interface_name := pathStem file_path
  match content? with
  | none =>
    ({ name := interface_name, file_path := file_path },
     [⟨"error", failedParseMsg file_path⟩])
  | some content =>
    let functions := findGroups function_pattern 2 content
    let structures := findGroups struct_pattern 1 content
    let constants := findGroups define_pattern 1 content
    let dependencies := (findGroups include_pattern 1 content).filter
      (fun inc => !startsWithB inc "std" && !startsWithB inc "sys/")
    ({ name := interface_name, file_path := file_path,
       functions := functions, structures := structures,
       constants := constants, dependencies := dependencies },
     [⟨"debug", "Parsed interface " ++ interface_name⟩])

/-! ### `ComponentAnalyzer.analyze_component_interfaces` (lines 158-188) -/

/-- The include names matched by the analyzer's local pattern. -/
def analyzerIncludes (content : String) : List String :=
  findGroups analyzer_include_pattern 1 content

/-- Names appended to `interfaces_required` for one file's content: the
base name of every included path that does not start with `std` and
contains a `/` (lines 174-179). -/
def requiredFromContent (content : String) : List String :=
  (analyzerIncludes content).filterMap (fun inc =>
    if !startsWithB inc "std" && hasSlash inc then some (pathName inc)
    else none)

/-- The per-file loop of `analyze_component_interfaces`: files not ending
in `.h` are skipped; a `.h` file's base name is appended to the provided
list before the file is read, and its qualifying includes are appended to
the required list when it is readable (the `except` branch only logs). -/
def scanFiles (readFile : String → Option String) :
    List String → List String × List String → List String × List String
  | [], acc => acc
  | fp :: rest, (prov, req) =>
    if endsWithB fp ".h" then
      let prov' := prov ++ [pathName fp]
      match readFile fp with
      | some content => scanFiles readFile rest (prov', req ++ requiredFromContent content)
      | none => scanFiles readFile rest (prov', req)
    else scanFiles readFile rest (prov, req)

/-- `analyze_component_interfaces`.  The source's final
`list(set(...))` deduplication is modelled as `List.dedup`
(first-occurrence order; the set's iteration order is unspecified in the
source, and no theorem below depends on the order of these two lists). -/
def analyze_component_interfaces (readFile : String → Option String)
    (component : AgentComponent) : AgentComponent :=
  let r := scanFiles readFile component.file_paths
    (component.interfaces_provided, component.interfaces_required)
  { component with
    interfaces_provided := r.1.dedup
    interfaces_required := r.2.dedup }

/-! ### `DependencyValidator` (lines 190-285) -/

/-- Message of an unresolved-interface issue (line 216). -/
def unresolvedMsg (r : String) : String :=
  "Required interface \x27" ++ r ++ "\x27 is not provided by any component"

/-- The unresolved-interface issue for component `cname` and interface `r`
(lines 212-217). -/
def unresolvedIssue (cname r : String) : DependencyIssue :=
  ⟨"error", cname, r, unresolvedMsg r, none, none⟩

/-- Message of a circular-dependency issue (line 268). -/
def cycleMsg (n : String) : String :=
  "Circular dependency detected involving component \x27" ++ n ++ "\x27"

/-- The circular-dependency issue naming component `n` (lines 264-269). -/
def cycleIssue (n : String) : DependencyIssue :=
  ⟨"error", n, "", cycleMsg n, none, none⟩

/-- The critical-interface markers of `check_interface_ownership`
(lines 276-278). -/
def criticalMarkers : List String :=
  ["memory_interface", "process_interface", "filesystem_interface"]

/-- `any(critical in interface for critical in [...])` (line 276). -/
def isCriticalName (interface : String) : Bool :=
  criticalMarkers.any (fun m => containsSeg interface m)

/-- Message of a multiple-providers issue (line 284). -/
def ownershipMsg (interface : String) (providers : List String) : String :=
  "Interface \x27" ++ interface ++ "\x27 is provided by multiple components: " ++
    String.intercalate ", " providers

/-- The multiple-providers issue (lines 280-285). -/
def ownershipIssue (interface : String) (providers : List String) :
    DependencyIssue :=
  ⟨if isCriticalName interface then "error" else "warning",
   String.intercalate ", " providers, interface,
   ownershipMsg interface providers, none, none⟩

/-- Insert one `(interface, component)` pair into the provider map as the
source does (lines 203-206): create the key at the back on first sight,
then append the component name to its list. -/
def addProvider (m : List (String × List String)) (interface cname : String) :
    List (String × List String) :=
  if m.any (fun e => e.1 == interface) then
    m.map (fun e => if e.1 == interface then (e.1, e.2 ++ [cname]) else e)
  else m ++ [(interface, [cname])]

/-- The `interface_providers` dict of `validate_interface_compatibility`
(lines 201-206), as an insertion-ordered association list. -/
def buildInterfaceProviders (components : List AgentComponent) :
    List (String × List String) :=
  components.foldl (fun m c =>
    c.interfaces_provided.foldl (fun m i => addProvider m i c.name) m) []

/-- The missing-interface loop (lines 209-217): one error issue per
`(component, required interface)` pair whose interface is not a key of the
provider map. -/
def missingInterfaceIssues (components : List AgentComponent)
    (providers : List (String × List String)) : List DependencyIssue :=
  (components.map (fun c =>
    c.interfaces_required.filterMap (fun r =>
      if providers.any (fun e => e.1 == r) then none
      else some (unresolvedIssue c.name r)))).flatten

/-- The `dependency_graph` dict of `check_circular_dependencies`
(lines 230-239): every component is a node; its neighbor set holds each
other component providing one of its required interfaces.  The Python
`set` is modelled as a duplicate-free list in insertion order. -/
def addOnce (l : List String) (x : String) : List String :=
  if x ∈ l then l else l ++ [x]

/-- Build the dependency graph of `check_circular_dependencies`. -/
def buildDependencyGraph (components : List AgentComponent) :
    List (String × List String) :=
  components.map (fun c =>
    (c.name, c.interfaces_required.foldl (fun acc r =>
      components.foldl (fun acc2 oc =>
        if r ∈ oc.interfaces_provided ∧ oc.name ≠ c.name then
          addOnce acc2 oc.name
        else acc2) acc) []))

/-- `dependency_graph.get(node, set())`. -/
def graphNeighbors (g : List (String × List String)) (node : String) :
    List String :=
  ((g.find? (fun e => e.1 == node)).map (fun e => e.2)).getD []

/-- The two mutable sets shared by every `has_cycle` call (lines 242-243).
Both only ever hold distinct elements, so lists are faithful. -/
structure DfsState where
  visited : List String
  recStack : List String
deriving Repr, DecidableEq

/-- The recursive closure `has_cycle` (lines 245-259).  On finding a node
in `rec_stack` it returns `True` immediately, so the `rec_stack.remove`
cleanup at the end is skipped for every frame on the call path — the
stack stays polluted for later roots, exactly as in the source.  `fuel`
bounds the nesting depth; every nested call adds a fresh node to
`visited`, so `g.length + 2` is always sufficient. -/
def hasCycleGo (g : List (String × List String)) :
    Nat → String → DfsState → Bool × DfsState
  | 0, _, st => (false, st)
  | fuel + 1, node, st =>
    if node ∈ st.recStack then (true, st)
    else if node ∈ st.visited then (false, st)
    else
      let st1 : DfsState := ⟨st.visited ++ [node], st.recStack ++ [node]⟩
      let r := (graphNeighbors g node).foldl
        (fun (acc : Bool × DfsState) nb =>
          if acc.1 then acc else hasCycleGo g fuel nb acc.2)
        (false, st1)
      if r.1 then r
      else (false, ⟨r.2.visited, r.2.recStack.erase node⟩)

/-- One iteration of the root loop of `check_circular_dependencies`
(lines 261-269): skip already-visited roots, otherwise run `has_cycle`
and append one error issue when it reports a cycle. -/
def cycleCheckStep (g : List (String × List String))
    (acc : DfsState × List DependencyIssue) (entry : String × List String) :
    DfsState × List DependencyIssue :=
  if entry.1 ∈ acc.1.visited then acc
  else
    match hasCycleGo g (g.length + 2) entry.1 acc.1 with
    | (true, st') => (st', acc.2 ++ [cycleIssue entry.1])
    | (false, st') => (st', acc.2)

/-- `check_circular_dependencies` (lines 227-269): run `has_cycle` from
every not-yet-visited node in graph order, sharing `visited`/`rec_stack`
across roots, and emit one error issue per root whose search found a
cycle. -/
def check_circular_dependencies (components : List AgentComponent) :
    List DependencyIssue :=
  let g := buildDependencyGraph components
  (g.foldl (cycleCheckStep g) (⟨[], []⟩, [])).2

/-- `check_interface_ownership` (lines 271-285): one issue per interface
with more than one provider, in provider-map order. -/
def check_interface_ownership (providers : List (String × List String)) :
    List DependencyIssue :=
  providers.filterMap (fun e =>
    if e.2.length > 1 then some (ownershipIssue e.1 e.2) else none)

/-- `validate_interface_compatibility` (lines 196-225): provider map,
missing-interface check, cycle check, ownership check, with the issues
appended in that order. -/
def validate_interface_compatibility (components : List AgentComponent) :
    List DependencyIssue :=
  let providers := buildInterfaceProviders components
  missingInterfaceIssues components providers ++
    check_circular_dependencies components ++
    check_interface_ownership providers

/-! ### `CompatibilityChecker.compare_interfaces` (lines 355-374) and the
issue construction of `check_interface_changes` (lines 335-342) -/

/-- Message for a removed function (line 362). -/
def functionRemovedMsg (f : String) : String :=
  "Function \x27" ++ f ++ "\x27 was removed - this is a breaking change"

/-- Message for a removed structure (line 367). -/
def structureRemovedMsg (s : String) : String :=
  "Structure \x27" ++ s ++ "\x27 was removed - this is a breaking change"

/-- Message for a removed constant (line 372). -/
def constantRemovedMsg (c : String) : String :=
  "Constant \x27" ++ c ++ "\x27 was removed - this is a breaking change"

/-- Python `set(prev) - set(cur)`, modelled as the duplicate-free list of
`prev` elements absent from `cur` in first-occurrence order (the set's
iteration order is unspecified; all theorems below use only membership and
counts). -/
def removedSet (prev cur : List String) : List String :=
  prev.dedup.filter (fun x => decide (x ∉ cur))

/-- `compare_interfaces`: breaking changes are the removed functions, then
the removed structures, then the removed constants. -/
def compare_interfaces (previous current : InterfaceDefinition) :
    List String :=
  (removedSet previous.functions current.functions).map functionRemovedMsg ++
  (removedSet previous.structures current.structures).map structureRemovedMsg ++
  (removedSet previous.constants current.constants).map constantRemovedMsg

/-- The issues `check_interface_changes` builds from one file's breaking
changes (lines 335-342): every change becomes an error-severity issue. -/
def changeIssuesOf (component interface file_path : String)
    (changes : List String) : List DependencyIssue :=
  changes.map (fun m => ⟨"error", component, interface, m, some file_path, none⟩)

/-! ### Aggregation in `main` (lines 543-551) and report ordering
(lines 422-426) -/

/-- The issue list `main` hands to the reporter: validator output followed
by differ output, in production order — no sort is applied anywhere. -/
def mainIssues (components : List AgentComponent)
    (change_issues : List DependencyIssue) : List DependencyIssue :=
  validate_interface_compatibility components ++ change_issues

/-- The order in which `generate_console_report` lists issues
(lines 422-426): all errors, then all warnings, then all infos, preserving
production order inside each severity. -/
def consoleSeverityOrder (issues : List DependencyIssue) :
    List DependencyIssue :=
  issues.filter (fun i => i.severity == "error") ++
  issues.filter (fun i => i.severity == "warning") ++
  issues.filter (fun i => i.severity == "info")

/-! ### Spec-side notions used to state the claims -/

/-- Severity rank of the spec's aggregator contract: error > warning >
info (rank 0 is most severe). -/
def severityRank (s : String) : Nat :=
  if s = "error" then 0
  else if s = "warning" then 1
  else if s = "info" then 2
  else 3

/-- Lexicographic order on character lists (strict). -/
def strLtB : List Char → List Char → Bool
  | [], [] => false
  | [], _ :: _ => true
  | _ :: _, [] => false
  | a :: as, b :: bs => decide (a < b) || (a == b && strLtB as bs)

/-- Non-strict string order. -/
def strLeB (x y : String) : Bool := strLtB x.data y.data || x == y

/-- The spec's issue ordering key: severity rank, then component name,
then interface name. -/
def issueKeyLe (a b : DependencyIssue) : Bool :=
  decide (severityRank a.severity < severityRank b.severity) ||
  (severityRank a.severity == severityRank b.severity &&
    (strLtB a.component.data b.component.data ||
     (a.component == b.component && strLeB a.interface b.interface)))

/-- Boolean pairwise-sortedness of an issue list under a key order. -/
def pairwiseLeB (le : DependencyIssue → DependencyIssue → Bool) :
    List DependencyIssue → Bool
  | [] => true
  | a :: rest => rest.all (le a) && pairwiseLeB le rest

/-- Claim C2's sortedness property of an issue list. -/
def sortedBySpecOrder (l : List DependencyIssue) : Prop :=
  pairwiseLeB issueKeyLe l = true

/-- One closure step of graph reachability (adds all neighbors of the
accumulated nodes). -/
def expandOnce (g : List (String × List String)) (acc : List String) :
    List String :=
  acc.foldl (fun acc2 n => (graphNeighbors g n).foldl addOnce acc2) acc

/-- Nodes reachable from `v` along at least one edge. -/
def reachOut (g : List (String × List String)) (v : String) : List String :=
  (List.range (g.length + 1)).foldl (fun acc _ => expandOnce g acc)
    ((graphNeighbors g v).foldl addOnce [])

/-- `v` lies on a directed cycle of `g`: it reaches itself in ≥ 1 step. -/
def liesOnCycle (g : List (String × List String)) (v : String) : Bool :=
  decide (v ∈ reachOut g v)

/-- Non-strict severity-rank comparison between issues. -/
def rankLeB (a b : DependencyIssue) : Bool :=
  decide (severityRank a.severity ≤ severityRank b.severity)

/-- A three-component dependency cycle A → B → C → A (each component
requires an interface the next provides), the graph named by claim C3. -/
def threeCycleComponents : List AgentComponent :=
  [{ name := "A", agent_type := "a", interfaces_provided := ["ia.h"],
     interfaces_required := ["ib.h"] },
   { name := "B", agent_type := "b", interfaces_provided := ["ib.h"],
     interfaces_required := ["ic.h"] },
   { name := "C", agent_type := "c", interfaces_provided := ["ic.h"],
     interfaces_required := ["ia.h"] }]

/-- Two acyclic components D and E that both point into a two-component
cycle A ⇄ B; D and E provide nothing and lie on no cycle. -/
def twoTailsOneCycleComponents : List AgentComponent :=
  [{ name := "D", agent_type := "d", interfaces_required := ["ia.h"] },
   { name := "E", agent_type := "e", interfaces_required := ["ia.h"] },
   { name := "A", agent_type := "a", interfaces_provided := ["ia.h"],
     interfaces_required := ["ib.h"] },
   { name := "B", agent_type := "b", interfaces_provided := ["ib.h"],
     interfaces_required := ["ia.h"] }]

/-! ## Claim C7 -/

/-- Claim C7 is false on the code: `parse_header_file` appends one entry
per regex match without any deduplication, so an artifact declaring the
same function twice yields that name twice in `functions`. -/
theorem c7_counterexample :
    (parse_header_file "x/a.h" (some "int f(a);int f(a);")).1.functions
      = ["f", "f"]
    ∧ ¬ (parse_header_file "x/a.h"
          (some "int f(a);int f(a);")).1.functions.Nodup := by
  decide

/-- Claim C7 amended: the Extractor appends one entry per textual match
without deduplication, so each of the four collections (functions,
structures, constants, referenced interfaces) can contain the same name
more than once when the artifact matches the same declaration shape
repeatedly; uniqueness is not an invariant of the descriptor. -/
theorem c7_amended :
    (parse_header_file "x/a.h" (some "int f(a);int f(a);")).1.functions
      = ["f", "f"]
    ∧ (parse_header_file "x/a.h"
        (some "typedef struct S\x7btypedef struct S\x7b")).1.structures
      = ["S", "S"]
    ∧ (parse_header_file "x/a.h"
        (some "#define A 1\n#define A 1\n")).1.constants
      = ["A", "A"]
    ∧ (parse_header_file "x/a.h"
        (some "#include \"x/y.h\"\n#include \"x/y.h\"\n")).1.dependencies
      = ["x/y.h", "x/y.h"] := by
  refine ⟨rfl, rfl, rfl, rfl⟩

/-! ## Claim C8 -/

/-- Claim C8 is false in one detail: the unreadable-file failure is logged
at **error** level (`logger.error`, line 97), not surfaced as a warning. -/
theorem c8_counterexample :
    ((parse_header_file "foo/bar.h" none).2.map (fun e => e.level))
      = ["error"]
    ∧ ¬ (∃ e ∈ (parse_header_file "foo/bar.h" none).2,
          e.level = "warning") := by
  decide

/-- Claim C8 amended: for every file path whose content cannot be read,
`parse_header_file` does not raise — it returns a descriptor whose name is
the path's stem and whose function, structure, constant and reference
collections are all empty — and the failure is only logged (at error
level, not warning) while extraction of the remaining artifacts continues
(one descriptor per input file regardless of readability). -/
theorem c8_amended :
    (∀ fp : String,
      parse_header_file fp none =
        (⟨pathStem fp, fp, [], [], [], "1.0.0", []⟩,
         [⟨"error", failedParseMsg fp⟩]))
    ∧ (∀ (paths : List String) (readFile : String → Option String),
        (paths.map (fun p => (parse_header_file p (readFile p)).1)).length
          = paths.length) := by
  exact ⟨fun fp => rfl, fun paths readFile => List.length_map _ _⟩

/-! ## Claim C4 -/

/-- Unfolding the ownership check one provider-map entry at a time. -/
theorem check_interface_ownership_cons (e : String × List String)
    (rest : List (String × List String)) :
    check_interface_ownership (e :: rest) =
      (if 1 < e.2.length then [ownershipIssue e.1 e.2] else []) ++
        check_interface_ownership rest := by
  by_cases hc : 1 < e.2.length <;>
    simp [check_interface_ownership, List.filterMap_cons, hc]

/-- Membership characterization of the ownership check's output. -/
theorem mem_check_interface_ownership
    {providers : List (String × List String)} {i : DependencyIssue} :
    i ∈ check_interface_ownership providers ↔
      ∃ e ∈ providers, 1 < e.2.length ∧ i = ownershipIssue e.1 e.2 := by
  simp only [check_interface_ownership, List.mem_filterMap]
  constructor
  · rintro ⟨e, he, hf⟩
    by_cases hc : e.2.length > 1
    · simp only [hc, if_pos] at hf
      exact ⟨e, he, hc, ((Option.some.injEq _ _).mp hf).symm⟩
    · simp [hc] at hf
  · rintro ⟨e, he, hc, rfl⟩
    exact ⟨e, he, by simp [hc]⟩

/-- Interfaces not among the provider-map keys receive no ownership issue. -/
theorem ownership_countP_eq_zero
    (providers : List (String × List String)) (I : String)
    (h : I ∉ providers.map Prod.fst) :
    (check_interface_ownership providers).countP
      (fun i => i.interface == I) = 0 := by
  rw [List.countP_eq_zero]
  intro i hi
  obtain ⟨e, he, _, rfl⟩ := mem_check_interface_ownership.mp hi
  have hne : e.1 ≠ I := by
    intro hEq
    exact h (hEq ▸ List.mem_map_of_mem Prod.fst he)
  simpa [ownershipIssue] using hne

/-- Claim C4: in any provider map with unique keys, each interface with
more than one provider yields exactly one multiple-ownership issue; that
issue names all providers (comma-joined) and its severity is `error` iff
the interface name contains one of the critical markers
(`memory_interface` / `process_interface` / `filesystem_interface`),
otherwise `warning`. -/
theorem c4_ownership_issue (providers : List (String × List String))
    (I : String) (ps : List String)
    (hmem : (I, ps) ∈ providers)
    (hnd : (providers.map Prod.fst).Nodup)
    (hlen : 1 < ps.length) :
    ((check_interface_ownership providers).countP
        (fun i => i.interface == I) = 1)
    ∧ (∀ i ∈ check_interface_ownership providers, i.interface = I →
        i.component = String.intercalate ", " ps
        ∧ (i.severity = "error" ↔ isCriticalName I = true)
        ∧ (i.severity = "error" ∨ i.severity = "warning")) := by
  induction providers with
  | nil => cases hmem
  | cons e rest ih =>
    simp only [List.map_cons, List.nodup_cons] at hnd
    obtain ⟨hkey, hndr⟩ := hnd
    rcases List.mem_cons.mp hmem with he | hr
    · -- the head entry is (I, ps)
      have hI1 : e.1 = I := by rw [← he]
      have hI2 : e.2 = ps := by rw [← he]
      have hkey' : I ∉ rest.map Prod.fst := hI1 ▸ hkey
      have hrest0 := ownership_countP_eq_zero rest I hkey'
      constructor
      · rw [check_interface_ownership_cons, List.countP_append, hrest0,
          hI1, hI2]
        simp [hlen, ownershipIssue]
      · intro i hi hIface
        rcases mem_check_interface_ownership.mp hi with ⟨e', he', hc', rfl⟩
        rcases List.mem_cons.mp he' with he'' | hr''
        · have g1 : e'.1 = I := by rw [he'', hI1]
          have g2 : e'.2 = ps := by rw [he'', hI2]
          rw [g1, g2]
          refine ⟨rfl, ?_, ?_⟩
          · by_cases hcrit : isCriticalName I = true
            · simp [ownershipIssue, hcrit]
            · simp only [Bool.not_eq_true] at hcrit
              simp only [ownershipIssue, hcrit, Bool.false_eq_true,
                if_false]
              constructor
              · intro hw; exact absurd hw (by decide)
              · intro ht; exact absurd ht (by simp [hcrit])
          · by_cases hcrit : isCriticalName I = true
            · simp [ownershipIssue, hcrit]
            · simp only [Bool.not_eq_true] at hcrit
              simp [ownershipIssue, hcrit]
        · exfalso
          have hmem1 : e'.1 ∈ rest.map Prod.fst :=
            List.mem_map_of_mem Prod.fst hr''
          have : (ownershipIssue e'.1 e'.2).interface = e'.1 := rfl
          rw [this] at hIface
          rw [hIface] at hmem1
          exact hkey' hmem1
    · -- (I, ps) is in the tail; the head key differs from I
      have hne : e.1 ≠ I := by
        intro hEq
        have : I ∈ rest.map Prod.fst := List.mem_map_of_mem Prod.fst hr
        exact hkey (hEq ▸ this)
      have main := ih hr hndr
      constructor
      · rw [check_interface_ownership_cons, List.countP_append, main.1]
        have hhead : (if 1 < e.2.length then [ownershipIssue e.1 e.2]
            else []).countP (fun i => i.interface == I) = 0 := by
          split
          · simpa [ownershipIssue] using hne
          · rfl
        rw [hhead]
      · intro i hi hIface
        rcases mem_check_interface_ownership.mp hi with ⟨e', he', hc', rfl⟩
        rcases List.mem_cons.mp he' with he'' | hr''
        · exfalso
          have : (ownershipIssue e'.1 e'.2).interface = e'.1 := rfl
          rw [this] at hIface
          exact hne (he'' ▸ hIface)
        · exact main.2 _ (mem_check_interface_ownership.mpr
            ⟨e', hr'', hc', rfl⟩) hIface

/-- Witness for C4 at a concrete provider map. -/
theorem c4_ownership_issue_witness :
    (check_interface_ownership
        [("memory_interface.h", ["X", "Y"]), ("plain.h", ["Z"])]).countP
      (fun i => i.interface == "memory_interface.h") = 1 :=
  (c4_ownership_issue _ "memory_interface.h" ["X", "Y"]
    (by decide) (by decide) (by decide)).1

/-! ## Claim C5 -/

/-- Strings with equal character data are equal. -/
theorem str_ext {a b : String} (h : a.data = b.data) : a = b := by
  cases a; cases b; exact congrArg String.mk h

/-- Wrapping a name between two fixed strings is injective. -/
theorem msg_affix_inj (pre suf : String) :
    Function.Injective (fun n => pre ++ n ++ suf) := by
  intro a b h
  have hd := congrArg String.data h
  simp only [String.data_append, List.append_assoc] at hd
  exact str_ext (List.append_cancel_right (List.append_cancel_left hd))

/-- The head character of an affixed message is the head of its prefix. -/
theorem head_msg (pre n suf : String) (c : Char)
    (h : pre.data.head? = some c) :
    (pre ++ n ++ suf).data.head? = some c := by
  simp only [String.data_append]
  cases hp : pre.data with
  | nil => rw [hp] at h; cases h
  | cons a t =>
    rw [hp] at h
    simp only [List.head?_cons, Option.some.injEq] at h
    subst h
    rfl

/-- Two strings with distinct head characters are distinct. -/
theorem msg_ne_of_head_ne {m1 m2 : String} {c1 c2 : Char}
    (h1 : m1.data.head? = some c1) (h2 : m2.data.head? = some c2)
    (hne : c1 ≠ c2) : m1 ≠ m2 := by
  intro h
  rw [h] at h1
  rw [h1] at h2
  exact hne (Option.some.injEq _ _ ▸ h2)

/-- `functionRemovedMsg` is injective. -/
theorem functionRemovedMsg_inj : Function.Injective functionRemovedMsg :=
  msg_affix_inj "Function \x27" "\x27 was removed - this is a breaking change"

/-- `structureRemovedMsg` is injective. -/
theorem structureRemovedMsg_inj : Function.Injective structureRemovedMsg :=
  msg_affix_inj "Structure \x27" "\x27 was removed - this is a breaking change"

/-- `constantRemovedMsg` is injective. -/
theorem constantRemovedMsg_inj : Function.Injective constantRemovedMsg :=
  msg_affix_inj "Constant \x27" "\x27 was removed - this is a breaking change"

/-- A function-removal message is never a structure-removal message. -/
theorem functionMsg_ne_structureMsg (n m : String) :
    functionRemovedMsg n ≠ structureRemovedMsg m := by
  unfold functionRemovedMsg structureRemovedMsg
  exact msg_ne_of_head_ne (head_msg _ n _ 'F' (by decide))
    (head_msg _ m _ 'S' (by decide)) (by decide)

/-- A function-removal message is never a constant-removal message. -/
theorem functionMsg_ne_constantMsg (n m : String) :
    functionRemovedMsg n ≠ constantRemovedMsg m := by
  unfold functionRemovedMsg constantRemovedMsg
  exact msg_ne_of_head_ne (head_msg _ n _ 'F' (by decide))
    (head_msg _ m _ 'C' (by decide)) (by decide)

/-- A structure-removal message is never a constant-removal message. -/
theorem structureMsg_ne_constantMsg (n m : String) :
    structureRemovedMsg n ≠ constantRemovedMsg m := by
  unfold structureRemovedMsg constantRemovedMsg
  exact msg_ne_of_head_ne (head_msg _ n _ 'S' (by decide))
    (head_msg _ m _ 'C' (by decide)) (by decide)

/-- Membership in the modelled set difference. -/
theorem mem_removedSet {prev cur : List String} {n : String} :
    n ∈ removedSet prev cur ↔ n ∈ prev ∧ n ∉ cur := by
  simp [removedSet, List.mem_filter, List.mem_dedup]

/-- The modelled set difference has no duplicates. -/
theorem nodup_removedSet (prev cur : List String) :
    (removedSet prev cur).Nodup :=
  List.Nodup.filter _ (List.nodup_dedup prev)

/-- Count of an injectively-built message over one removed-symbol block. -/
theorem count_map_removedSet (prev cur : List String) (f : String → String)
    (hf : Function.Injective f) (n : String) :
    ((removedSet prev cur).map f).count (f n) =
      if n ∈ prev ∧ n ∉ cur then 1 else 0 := by
  rw [List.count_map_of_injective _ f hf]
  by_cases h : n ∈ prev ∧ n ∉ cur
  · rw [if_pos h]
    exact List.count_eq_one_of_mem (nodup_removedSet _ _) (mem_removedSet.mpr h)
  · rw [if_neg h, List.count_eq_zero]
    exact fun hm => h (mem_removedSet.mp hm)

/-- A message of one kind never occurs in another kind's block. -/
theorem count_in_foreign_block (l : List String) (f g : String → String)
    (hfg : ∀ a b, f a ≠ g b) (n : String) :
    (l.map g).count (f n) = 0 := by
  rw [List.count_eq_zero]
  intro hm
  obtain ⟨m, _, he⟩ := List.mem_map.mp hm
  exact hfg n m he.symm

/-- Claim C5: `compare_interfaces` reports exactly one breaking change per
function, structure, or constant name present in the previous descriptor
and absent from the current one, and nothing else; in particular it
returns the empty list whenever every symbol of the previous descriptor
still appears in the current one, regardless of additions. -/
theorem c5_compare_breaking_changes (p c : InterfaceDefinition) :
    ((∀ f ∈ p.functions, f ∈ c.functions) →
     (∀ s ∈ p.structures, s ∈ c.structures) →
     (∀ k ∈ p.constants, k ∈ c.constants) →
      compare_interfaces p c = [])
    ∧ (∀ n : String, (compare_interfaces p c).count (functionRemovedMsg n)
        = if n ∈ p.functions ∧ n ∉ c.functions then 1 else 0)
    ∧ (∀ n : String, (compare_interfaces p c).count (structureRemovedMsg n)
        = if n ∈ p.structures ∧ n ∉ c.structures then 1 else 0)
    ∧ (∀ n : String, (compare_interfaces p c).count (constantRemovedMsg n)
        = if n ∈ p.constants ∧ n ∉ c.constants then 1 else 0)
    ∧ (∀ m ∈ compare_interfaces p c,
        (∃ n, n ∈ p.functions ∧ n ∉ c.functions ∧ m = functionRemovedMsg n)
        ∨ (∃ n, n ∈ p.structures ∧ n ∉ c.structures
            ∧ m = structureRemovedMsg n)
        ∨ (∃ n, n ∈ p.constants ∧ n ∉ c.constants
            ∧ m = constantRemovedMsg n)) := by
  refine ⟨?_, ?_, ?_, ?_, ?_⟩
  · intro hf hs hk
    have e1 : removedSet p.functions c.functions = [] := by
      rw [removedSet, List.filter_eq_nil_iff]
      intro a ha
      simp only [decide_eq_true_eq, Decidable.not_not]
      exact hf a (List.mem_dedup.mp ha)
    have e2 : removedSet p.structures c.structures = [] := by
      rw [removedSet, List.filter_eq_nil_iff]
      intro a ha
      simp only [decide_eq_true_eq, Decidable.not_not]
      exact hs a (List.mem_dedup.mp ha)
    have e3 : removedSet p.constants c.constants = [] := by
      rw [removedSet, List.filter_eq_nil_iff]
      intro a ha
      simp only [decide_eq_true_eq, Decidable.not_not]
      exact hk a (List.mem_dedup.mp ha)
    simp [compare_interfaces, e1, e2, e3]
  · intro n
    simp only [compare_interfaces, List.count_append]
    rw [count_map_removedSet _ _ _ functionRemovedMsg_inj,
      count_in_foreign_block _ _ _ functionMsg_ne_structureMsg,
      count_in_foreign_block _ _ _ functionMsg_ne_constantMsg]
    omega
  · intro n
    simp only [compare_interfaces, List.count_append]
    rw [count_map_removedSet _ _ _ structureRemovedMsg_inj,
      count_in_foreign_block _ _ _ (fun a b =>
        (functionMsg_ne_structureMsg b a).symm),
      count_in_foreign_block _ _ _ structureMsg_ne_constantMsg]
    omega
  · intro n
    simp only [compare_interfaces, List.count_append]
    rw [count_map_removedSet _ _ _ constantRemovedMsg_inj,
      count_in_foreign_block _ _ _ (fun a b =>
        (functionMsg_ne_constantMsg b a).symm),
      count_in_foreign_block _ _ _ (fun a b =>
        (structureMsg_ne_constantMsg b a).symm)]
    omega
  · intro m hm
    simp only [compare_interfaces, List.mem_append, List.mem_map] at hm
    rcases hm with (⟨n, hn, rfl⟩ | ⟨n, hn, rfl⟩) | ⟨n, hn, rfl⟩
    · exact Or.inl ⟨n, (mem_removedSet.mp hn).1, (mem_removedSet.mp hn).2,
        rfl⟩
    · exact Or.inr (Or.inl ⟨n, (mem_removedSet.mp hn).1,
        (mem_removedSet.mp hn).2, rfl⟩)
    · exact Or.inr (Or.inr ⟨n, (mem_removedSet.mp hn).1,
        (mem_removedSet.mp hn).2, rfl⟩)

/-- Witness for C5: the removal of one function is reported exactly once,
and a pure addition produces no breaking change. -/
theorem c5_compare_breaking_changes_witness :
    (compare_interfaces
        { name := "i", file_path := "i.h", functions := ["f", "g"] }
        { name := "i", file_path := "i.h", functions := ["g"] }).count
      (functionRemovedMsg "f") = 1
    ∧ compare_interfaces
        { name := "i", file_path := "i.h", functions := ["g"] }
        { name := "i", file_path := "i.h", functions := ["g", "h"] } = [] := by
  constructor
  · rw [(c5_compare_breaking_changes
      { name := "i", file_path := "i.h", functions := ["f", "g"] }
      { name := "i", file_path := "i.h", functions := ["g"] }).2.1 "f"]
    decide
  · exact (c5_compare_breaking_changes
      { name := "i", file_path := "i.h", functions := ["g"] }
      { name := "i", file_path := "i.h", functions := ["g", "h"] }).1
      (by decide) (by decide) (by decide)

/-! ## Claim C2 -/

/-- `pairwiseLeB` holds when the order relates every ordered pair drawn
from the list. -/
theorem pairwiseLeB_of_all (le : DependencyIssue → DependencyIssue → Bool)
    (l : List DependencyIssue)
    (h : ∀ a ∈ l, ∀ b ∈ l, le a b = true) : pairwiseLeB le l = true := by
  induction l with
  | nil => rfl
  | cons x rest ih =>
    simp only [pairwiseLeB, Bool.and_eq_true, List.all_eq_true]
    refine ⟨fun b hb => h x (List.mem_cons_self _ _) b
      (List.mem_cons_of_mem _ hb), ?_⟩
    exact ih (fun a ha b hb =>
      h a (List.mem_cons_of_mem _ ha) b (List.mem_cons_of_mem _ hb))

/-- `pairwiseLeB` is preserved by concatenation when the blocks are
internally sorted and every left element relates to every right one. -/
theorem pairwiseLeB_append (le : DependencyIssue → DependencyIssue → Bool)
    (l1 l2 : List DependencyIssue)
    (h1 : pairwiseLeB le l1 = true) (h2 : pairwiseLeB le l2 = true)
    (h12 : ∀ a ∈ l1, ∀ b ∈ l2, le a b = true) :
    pairwiseLeB le (l1 ++ l2) = true := by
  induction l1 with
  | nil => simpa using h2
  | cons x rest ih =>
    simp only [pairwiseLeB, Bool.and_eq_true, List.all_eq_true] at h1
    simp only [List.cons_append, pairwiseLeB, Bool.and_eq_true,
      List.all_eq_true]
    constructor
    · intro b hb
      rcases List.mem_append.mp hb with hb1 | hb2
      · exact h1.1 b hb1
      · exact h12 x (List.mem_cons_self _ _) b hb2
    · exact ih h1.2
        (fun a ha b hb => h12 a (List.mem_cons_of_mem _ ha) b hb)

/-- Members of a same-severity filter block compare `rankLeB`-true. -/
theorem rankLeB_within_filter (issues : List DependencyIssue)
    (sev : String) :
    pairwiseLeB rankLeB (issues.filter (fun i => i.severity == sev))
      = true := by
  apply pairwiseLeB_of_all
  intro a ha b hb
  have hsa : a.severity = sev := by
    have := (List.mem_filter.mp ha).2
    exact eq_of_beq this
  have hsb : b.severity = sev := by
    have := (List.mem_filter.mp hb).2
    exact eq_of_beq this
  simp [rankLeB, hsa, hsb]

/-- Claim C2 is false on the code: `main` never sorts the aggregated issue
list; the ownership check can produce a warning before an error, so the
list handed to the reporter violates the claimed (severity, component,
interface) ordering. -/
theorem c2_counterexample :
    ((mainIssues
        [{ name := "X", agent_type := "x",
           interfaces_provided := ["plain.h", "memory_interface.h"] },
         { name := "Y", agent_type := "y",
           interfaces_provided := ["plain.h", "memory_interface.h"] }]
        []).map (fun i => i.severity) = ["warning", "error"])
    ∧ ¬ sortedBySpecOrder (mainIssues
        [{ name := "X", agent_type := "x",
           interfaces_provided := ["plain.h", "memory_interface.h"] },
         { name := "Y", agent_type := "y",
           interfaces_provided := ["plain.h", "memory_interface.h"] }]
        []) := by
  constructor
  · rfl
  · simp only [sortedBySpecOrder]
    decide

/-- Claim C2 amended: the aggregated list handed to the reporter is the
Validator's issues followed by the Differ's, in production order, with no
sorting by severity, component or interface; only the console report
re-groups the issues by severity rank (all errors, then all warnings,
then all infos), keeping production order inside each severity class. -/
theorem c2_amended (components : List AgentComponent)
    (change_issues issues : List DependencyIssue) :
    mainIssues components change_issues =
      validate_interface_compatibility components ++ change_issues
    ∧ pairwiseLeB rankLeB (consoleSeverityOrder issues) = true := by
  constructor
  · rfl
  · have herr := rankLeB_within_filter issues "error"
    have hwarn := rankLeB_within_filter issues "warning"
    have hinfo := rankLeB_within_filter issues "info"
    have cross : ∀ (s1 s2 : String),
        severityRank s1 ≤ severityRank s2 →
        ∀ a ∈ issues.filter (fun i => i.severity == s1),
        ∀ b ∈ issues.filter (fun i => i.severity == s2),
          rankLeB a b = true := by
      intro s1 s2 hle a ha b hb
      have hsa : a.severity = s1 := eq_of_beq (List.mem_filter.mp ha).2
      have hsb : b.severity = s2 := eq_of_beq (List.mem_filter.mp hb).2
      simp [rankLeB, hsa, hsb, hle]
    apply pairwiseLeB_append
    · apply pairwiseLeB_append _ _ _ herr hwarn
      exact cross "error" "warning" (by decide)
    · exact hinfo
    · intro a ha b hb
      rcases List.mem_append.mp ha with ha1 | ha2
      · exact cross "error" "info" (by decide) a ha1 b hb
      · exact cross "warning" "info" (by decide) a ha2 b hb

/-! ## Claim C3 -/

/-- Claim C3 is false in general: because `has_cycle` returns `True`
without unwinding `rec_stack`, later DFS roots that merely reach the
polluted stack are also reported.  For D → A, E → A with the single cycle
A ⇄ B, the check emits two issues for one cycle, and both name a
component (D, then E) that lies on no directed cycle of the dependency
graph. -/
theorem c3_counterexample :
    ((check_circular_dependencies twoTailsOneCycleComponents).map
        (fun i => i.component) = ["D", "E"])
    ∧ liesOnCycle (buildDependencyGraph twoTailsOneCycleComponents) "D"
        = false
    ∧ liesOnCycle (buildDependencyGraph twoTailsOneCycleComponents) "E"
        = false
    ∧ liesOnCycle (buildDependencyGraph twoTailsOneCycleComponents) "A"
        = true := by
  decide

/-- Claim C3 amended: for the three-component graph A → B → C → A (each
requiring an interface the next provides) the cycle check reports exactly
one error issue, naming the first component of the traversal order, and —
the check being a pure function of the component list — the same list is
produced on every run over identical input.  In general a reported
component is only a DFS root whose search reached a cycle: it need not
itself lie on a cycle, and one cycle can produce several issues. -/
theorem c3_amended :
    check_circular_dependencies threeCycleComponents = [cycleIssue "A"]
    ∧ (cycleIssue "A").severity = "error"
    ∧ liesOnCycle (buildDependencyGraph threeCycleComponents) "A" = true := by
  decide

/-! ## Claims C1 and C9 -/

/-- Membership in the required-interface accumulator of the per-file scan:
a name is collected iff it was already present or contributed by some
readable `.h` file of the list. -/
theorem mem_scanFiles_required (readFile : String → Option String)
    (fps : List String) (prov req : List String) (I : String) :
    I ∈ (scanFiles readFile fps (prov, req)).2 ↔
      I ∈ req ∨ ∃ fp ∈ fps, endsWithB fp ".h" = true ∧
        ∃ content, readFile fp = some content ∧
          I ∈ requiredFromContent content := by
  induction fps generalizing prov req with
  | nil => simp [scanFiles]
  | cons fp rest ih =>
    by_cases hh : endsWithB fp ".h" = true
    · cases hc : readFile fp with
      | some content =>
        rw [show scanFiles readFile (fp :: rest) (prov, req) =
            scanFiles readFile rest (prov ++ [pathName fp],
              req ++ requiredFromContent content) from by
          simp [scanFiles, hh, hc]]
        rw [ih]
        constructor
        · rintro (hmem | ⟨fp', hfp', h3, c', hc', hI⟩)
          · rcases List.mem_append.mp hmem with h1 | h2
            · exact Or.inl h1
            · exact Or.inr ⟨fp, List.mem_cons_self _ _, hh, content, hc, h2⟩
          · exact Or.inr ⟨fp', List.mem_cons_of_mem _ hfp', h3, c', hc', hI⟩
        · rintro (h1 | ⟨fp', hfp', h3, c', hc', hI⟩)
          · exact Or.inl (List.mem_append.mpr (Or.inl h1))
          · rcases List.mem_cons.mp hfp' with rfl | hrest
            · rw [hc] at hc'
              injection hc' with hce
              subst hce
              exact Or.inl (List.mem_append.mpr (Or.inr hI))
            · exact Or.inr ⟨fp', hrest, h3, c', hc', hI⟩
      | none =>
        rw [show scanFiles readFile (fp :: rest) (prov, req) =
            scanFiles readFile rest (prov ++ [pathName fp], req) from by
          simp [scanFiles, hh, hc]]
        rw [ih]
        constructor
        · rintro (h1 | ⟨fp', hfp', h3, c', hc', hI⟩)
          · exact Or.inl h1
          · exact Or.inr ⟨fp', List.mem_cons_of_mem _ hfp', h3, c', hc', hI⟩
        · rintro (h1 | ⟨fp', hfp', h3, c', hc', hI⟩)
          · exact Or.inl h1
          · rcases List.mem_cons.mp hfp' with rfl | hrest
            · rw [hc] at hc'
              cases hc'
            · exact Or.inr ⟨fp', hrest, h3, c', hc', hI⟩
    · rw [show scanFiles readFile (fp :: rest) (prov, req) =
          scanFiles readFile rest (prov, req) from by
        simp [scanFiles, hh]]
      rw [ih]
      constructor
      · rintro (h1 | ⟨fp', hfp', h3, c', hc', hI⟩)
        · exact Or.inl h1
        · exact Or.inr ⟨fp', List.mem_cons_of_mem _ hfp', h3, c', hc', hI⟩
      · rintro (h1 | ⟨fp', hfp', h3, c', hc', hI⟩)
        · exact Or.inl h1
        · rcases List.mem_cons.mp hfp' with rfl | hrest
          · exact absurd h3 hh
          · exact Or.inr ⟨fp', hrest, h3, c', hc', hI⟩

/-- Membership in one file's contribution to the required list: the
include must not start with `std`, must contain a slash, and contributes
its base name. -/
theorem mem_requiredFromContent {content I : String} :
    I ∈ requiredFromContent content ↔
      ∃ inc ∈ analyzerIncludes content, startsWithB inc "std" = false ∧
        hasSlash inc = true ∧ pathName inc = I := by
  simp only [requiredFromContent, List.mem_filterMap]
  constructor
  · rintro ⟨inc, hinc, hf⟩
    by_cases hcond : (!startsWithB inc "std" && hasSlash inc) = true
    · rw [if_pos hcond] at hf
      rw [Bool.and_eq_true, Bool.not_eq_true'] at hcond
      exact ⟨inc, hinc, hcond.1, hcond.2, Option.some.inj hf⟩
    · rw [if_neg hcond] at hf
      cases hf
  · rintro ⟨inc, hinc, h1, h2, rfl⟩
    exact ⟨inc, hinc, by simp [h1, h2]⟩

/-- Claim C1 is false on the code: `analyze_component_interfaces` never
subtracts the provided set from the required set — a component whose
header includes a slash-qualified path to its own `memory_interface.h`
lists that interface both as provided and as required. -/
theorem c1_counterexample :
    "memory_interface.h" ∈ (analyze_component_interfaces
        (fun p => if p = "k/other.h"
          then some "#include \"k/memory_interface.h\"\n"
          else if p = "k/memory_interface.h" then some "" else none)
        { name := "M", agent_type := "m",
          file_paths := ["k/memory_interface.h", "k/other.h"] }
        ).interfaces_required
    ∧ "memory_interface.h" ∈ (analyze_component_interfaces
        (fun p => if p = "k/other.h"
          then some "#include \"k/memory_interface.h\"\n"
          else if p = "k/memory_interface.h" then some "" else none)
        { name := "M", agent_type := "m",
          file_paths := ["k/memory_interface.h", "k/other.h"] }
        ).interfaces_provided := by
  decide

/-- Claim C1 amended: the required-interface set of a component is exactly
the deduplicated base names of the qualifying includes of its readable
`.h` files — the provided-interface set plays no role, so a component may
require an interface it itself provides; only exact duplicates are
removed. -/
theorem c1_required_ignores_provided (readFile : String → Option String)
    (c : AgentComponent) (h : c.interfaces_required = []) (I : String) :
    I ∈ (analyze_component_interfaces readFile c).interfaces_required ↔
      ∃ fp ∈ c.file_paths, endsWithB fp ".h" = true ∧
        ∃ content, readFile fp = some content ∧
          I ∈ requiredFromContent content := by
  show I ∈ (scanFiles readFile c.file_paths
      (c.interfaces_provided, c.interfaces_required)).2.dedup ↔ _
  rw [List.mem_dedup, mem_scanFiles_required, h]
  simp

/-- Witness for the amended C1: a component that provides `self.h` still
records `self.h` as required when another of its headers includes it. -/
theorem c1_required_ignores_provided_witness :
    "self.h" ∈ (analyze_component_interfaces
        (fun p => if p = "w/main.h" then some "#include \"w/self.h\"\n"
          else if p = "w/self.h" then some "" else none)
        { name := "N", agent_type := "n",
          file_paths := ["w/self.h", "w/main.h"] }).interfaces_required :=
  (c1_required_ignores_provided
      (fun p => if p = "w/main.h" then some "#include \"w/self.h\"\n"
        else if p = "w/self.h" then some "" else none)
      { name := "N", agent_type := "n",
        file_paths := ["w/self.h", "w/main.h"] } rfl "self.h").mpr
    ⟨"w/main.h", by decide, by decide, "#include \"w/self.h\"\n", rfl,
      by decide⟩

/-- Claim C9: every name in the required set of an analyzed component
comes from a `.h` owned file whose content contains an include that does
not start with `std` and contains a `/` separator; bare includes without a
directory component are never recorded, and only `.h` files are scanned. -/
theorem c9_include_gating (readFile : String → Option String)
    (c : AgentComponent) (h : c.interfaces_required = []) :
    ∀ I ∈ (analyze_component_interfaces readFile c).interfaces_required,
      ∃ fp ∈ c.file_paths, endsWithB fp ".h" = true ∧
        ∃ content, readFile fp = some content ∧
          ∃ inc ∈ analyzerIncludes content,
            startsWithB inc "std" = false ∧ hasSlash inc = true ∧
              pathName inc = I := by
  intro I hI
  have hI' : I ∈ (scanFiles readFile c.file_paths
      (c.interfaces_provided, c.interfaces_required)).2.dedup := hI
  rw [List.mem_dedup, mem_scanFiles_required, h] at hI'
  simp only [List.not_mem_nil, false_or] at hI'
  obtain ⟨fp, hfp, hew, content, hc, hrc⟩ := hI'
  obtain ⟨inc, hinc, h1, h2, h3⟩ := mem_requiredFromContent.mp hrc
  exact ⟨fp, hfp, hew, content, hc, inc, hinc, h1, h2, h3⟩

/-- Witness for C9 at a concrete oracle and component. -/
theorem c9_include_gating_witness :
    ∃ fp ∈ ["k/a.h"], endsWithB fp ".h" = true ∧
      ∃ content,
        (if fp = "k/a.h" then some "#include <k/b.h>\n" else none)
          = some content ∧
        ∃ inc ∈ analyzerIncludes content,
          startsWithB inc "std" = false ∧ hasSlash inc = true ∧
            pathName inc = "b.h" :=
  c9_include_gating
    (fun p => if p = "k/a.h" then some "#include <k/b.h>\n" else none)
    { name := "W", agent_type := "w", file_paths := ["k/a.h"] } rfl
    "b.h" (by decide)

/-! ## Claims C6 and C10 -/

/-- Prefixing preserves the head character of a nonempty string. -/
theorem head_append (a b : String) (c : Char)
    (h : a.data.head? = some c) : (a ++ b).data.head? = some c := by
  rw [String.data_append]
  cases ha : a.data with
  | nil => rw [ha] at h; cases h
  | cons x t =>
    rw [ha] at h
    simp only [List.head?_cons, Option.some.injEq] at h
    subst h
    rfl

/-- An unresolved-interface message starts with `R`. -/
theorem unresolvedMsg_head (r : String) :
    (unresolvedMsg r).data.head? = some 'R' :=
  head_append _ _ _ (head_append _ _ _ (by decide))

/-- A circular-dependency message starts with `C`. -/
theorem cycleMsg_head (n : String) :
    (cycleMsg n).data.head? = some 'C' :=
  head_append _ _ _ (head_append _ _ _ (by decide))

/-- A multiple-providers message starts with `I`. -/
theorem ownershipMsg_head (i : String) (ps : List String) :
    (ownershipMsg i ps).data.head? = some 'I' :=
  head_append _ _ _ (head_append _ _ _ (head_append _ _ _ (by decide)))

/-- An unresolved-interface issue is never a cycle issue. -/
theorem unresolvedIssue_ne_cycleIssue (cn r n : String) :
    unresolvedIssue cn r ≠ cycleIssue n := fun h =>
  msg_ne_of_head_ne (unresolvedMsg_head r) (cycleMsg_head n) (by decide)
    (congrArg DependencyIssue.message h)

/-- An unresolved-interface issue is never an ownership issue. -/
theorem unresolvedIssue_ne_ownershipIssue (cn r i : String)
    (ps : List String) : unresolvedIssue cn r ≠ ownershipIssue i ps :=
  fun h =>
  msg_ne_of_head_ne (unresolvedMsg_head r) (ownershipMsg_head i ps)
    (by decide) (congrArg DependencyIssue.message h)

/-- The value-updating map of `addProvider` preserves the key set. -/
theorem map_update_keys (m : List (String × List String))
    (i n r : String) :
    ((m.map (fun e => if e.1 == i then (e.1, e.2 ++ [n]) else e)).any
      (fun e => e.1 == r)) = m.any (fun e => e.1 == r) := by
  induction m with
  | nil => rfl
  | cons e rest ih =>
    simp only [List.map_cons, List.any_cons]
    rw [ih]
    by_cases he : (e.1 == i) = true
    · rw [if_pos he]
    · rw [if_neg he]

/-- Key membership is invariant under `addProvider` except for the added
key. -/
theorem addProvider_keys (m : List (String × List String))
    (i n r : String) :
    ((addProvider m i n).any (fun e => e.1 == r) = true) ↔
      (m.any (fun e => e.1 == r) = true ∨ r = i) := by
  unfold addProvider
  by_cases hk : m.any (fun e => e.1 == i) = true
  · rw [if_pos hk]
    rw [map_update_keys]
    constructor
    · exact Or.inl
    · rintro (h | rfl)
      · exact h
      · exact hk
  · rw [if_neg hk]
    simp only [List.any_append, List.any_cons, List.any_nil,
      Bool.or_false, Bool.or_eq_true, beq_iff_eq]
    constructor
    · rintro (h | h)
      · exact Or.inl h
      · exact Or.inr h.symm
    · rintro (h | rfl)
      · exact Or.inl h
      · exact Or.inr rfl

/-- Key membership after folding one component's provided list. -/
theorem providers_foldl_keys (ps : List String) (cname : String)
    (m : List (String × List String)) (r : String) :
    ((ps.foldl (fun m i => addProvider m i cname) m).any
        (fun e => e.1 == r) = true) ↔
      (m.any (fun e => e.1 == r) = true ∨ r ∈ ps) := by
  induction ps generalizing m with
  | nil => simp
  | cons i rest ih =>
    simp only [List.foldl_cons]
    rw [ih, addProvider_keys]
    simp only [List.mem_cons]
    tauto

/-- The provider map has a key `r` iff some component provides `r`. -/
theorem buildInterfaceProviders_keys (comps : List AgentComponent)
    (r : String) :
    ((buildInterfaceProviders comps).any (fun e => e.1 == r) = true) ↔
      ∃ c ∈ comps, r ∈ c.interfaces_provided := by
  suffices h : ∀ m : List (String × List String),
      ((comps.foldl (fun m c => c.interfaces_provided.foldl
          (fun m i => addProvider m i c.name) m) m).any
        (fun e => e.1 == r) = true) ↔
      (m.any (fun e => e.1 == r) = true ∨
        ∃ c ∈ comps, r ∈ c.interfaces_provided) by
    have h0 := h []
    simpa [buildInterfaceProviders] using h0
  intro m
  induction comps generalizing m with
  | nil => simp
  | cons c rest ih =>
    simp only [List.foldl_cons]
    rw [ih, providers_foldl_keys]
    simp only [List.exists_mem_cons_iff]
    tauto

/-- Membership characterization of the missing-interface check. -/
theorem mem_missingInterfaceIssues {comps : List AgentComponent}
    {providers : List (String × List String)} {i : DependencyIssue} :
    i ∈ missingInterfaceIssues comps providers ↔
      ∃ c ∈ comps, ∃ r ∈ c.interfaces_required,
        ¬ (providers.any (fun e => e.1 == r) = true) ∧
        i = unresolvedIssue c.name r := by
  simp only [missingInterfaceIssues, List.mem_flatten, List.mem_map]
  constructor
  · rintro ⟨l, ⟨c, hc, rfl⟩, hil⟩
    obtain ⟨r, hr, hf⟩ := List.mem_filterMap.mp hil
    by_cases hp : providers.any (fun e => e.1 == r) = true
    · rw [if_pos hp] at hf
      cases hf
    · rw [if_neg hp] at hf
      exact ⟨c, hc, r, hr, hp, (Option.some.inj hf).symm⟩
  · rintro ⟨c, hc, r, hr, hp, rfl⟩
    exact ⟨_, ⟨c, hc, rfl⟩,
      List.mem_filterMap.mpr ⟨r, hr, by rw [if_neg hp]⟩⟩

/-- One root-loop step either keeps the issue list or appends one cycle
issue for the root. -/
theorem cycleCheckStep_issues (g : List (String × List String))
    (acc : DfsState × List DependencyIssue) (entry : String × List String) :
    (cycleCheckStep g acc entry).2 = acc.2 ∨
    (cycleCheckStep g acc entry).2 = acc.2 ++ [cycleIssue entry.1] := by
  unfold cycleCheckStep
  by_cases hv : entry.1 ∈ acc.1.visited
  · rw [if_pos hv]
    exact Or.inl rfl
  · rw [if_neg hv]
    cases hr : hasCycleGo g (g.length + 2) entry.1 acc.1 with
    | mk b st' => cases b <;> simp

/-- Every issue accumulated by the root loop is a cycle issue (given the
invariant on the initial accumulator). -/
theorem cycle_fold_issues (g : List (String × List String))
    (entries : List (String × List String)) :
    ∀ acc : DfsState × List DependencyIssue,
      (∀ i ∈ acc.2, ∃ n, i = cycleIssue n) →
      ∀ i ∈ (entries.foldl (cycleCheckStep g) acc).2, ∃ n, i = cycleIssue n := by
  induction entries with
  | nil => exact fun acc hacc => hacc
  | cons e rest ih =>
    intro acc hacc
    simp only [List.foldl_cons]
    apply ih
    rcases cycleCheckStep_issues g acc e with he | he <;> rw [he]
    · exact hacc
    · intro i hi
      rcases List.mem_append.mp hi with h1 | h2
      · exact hacc i h1
      · exact ⟨e.1, List.mem_singleton.mp h2⟩

/-- Every issue of the cycle check is a `cycleIssue`. -/
theorem mem_check_circular {comps : List AgentComponent}
    {i : DependencyIssue} (hi : i ∈ check_circular_dependencies comps) :
    ∃ n, i = cycleIssue n := by
  simp only [check_circular_dependencies] at hi
  exact cycle_fold_issues _ _ _ (fun i h => absurd h (List.not_mem_nil i))
    i hi

/-- Splitting the validator's output into its three checks. -/
theorem mem_validate {comps : List AgentComponent} {i : DependencyIssue} :
    i ∈ validate_interface_compatibility comps ↔
      i ∈ missingInterfaceIssues comps (buildInterfaceProviders comps) ∨
      i ∈ check_circular_dependencies comps ∨
      i ∈ check_interface_ownership (buildInterfaceProviders comps) := by
  simp [validate_interface_compatibility, List.mem_append, or_assoc]

/-- Claim C6: the Validator emits the unresolved-interface error issue for
component `c0` and interface `I` iff `c0` requires `I` and no component in
the list (including `c0` itself) provides `I`; and whenever any component
provides `I`, no unresolved report for `I` is produced against any
component.  Component names are assumed distinct, as produced by
`discover_components`. -/
theorem c6_unresolved_reports (comps : List AgentComponent)
    (hnd : (comps.map (fun c => c.name)).Nodup)
    (c0 : AgentComponent) (hc0 : c0 ∈ comps) (I : String) :
    ((∃ i ∈ validate_interface_compatibility comps,
        i = unresolvedIssue c0.name I) ↔
      (I ∈ c0.interfaces_required ∧ ∀ c ∈ comps, I ∉ c.interfaces_provided))
    ∧ ((∃ c ∈ comps, I ∈ c.interfaces_provided) →
        ∀ i ∈ validate_interface_compatibility comps, ∀ cn : String,
          i ≠ unresolvedIssue cn I) := by
  constructor
  · constructor
    · rintro ⟨i, hi, rfl⟩
      rcases mem_validate.mp hi with hm | hcy | how
      · obtain ⟨c, hc, r, hr, hp, heq⟩ := mem_missingInterfaceIssues.mp hm
        have hname : c0.name = c.name :=
          congrArg DependencyIssue.component heq
        have hIr : I = r := congrArg DependencyIssue.interface heq
        have hcc : c0 = c :=
          List.inj_on_of_nodup_map hnd hc0 hc hname
        subst hIr
        refine ⟨hcc ▸ hr, ?_⟩
        intro c' hc' hICont
        exact hp (buildInterfaceProviders_keys comps I |>.mpr
          ⟨c', hc', hICont⟩)
      · obtain ⟨n, hn⟩ := mem_check_circular hcy
        exact absurd hn (unresolvedIssue_ne_cycleIssue _ _ _)
      · obtain ⟨e, _, _, hn⟩ := mem_check_interface_ownership.mp how
        exact absurd hn (unresolvedIssue_ne_ownershipIssue _ _ _ _)
    · rintro ⟨hreq, hprov⟩
      have hp : ¬ ((buildInterfaceProviders comps).any
          (fun e => e.1 == I) = true) := by
        intro h
        obtain ⟨c, hc, hic⟩ := (buildInterfaceProviders_keys comps I).mp h
        exact hprov c hc hic
      exact ⟨unresolvedIssue c0.name I,
        mem_validate.mpr (Or.inl (mem_missingInterfaceIssues.mpr
          ⟨c0, hc0, I, hreq, hp, rfl⟩)), rfl⟩
  · rintro ⟨c', hc', hic⟩ i hi cn heq
    subst heq
    rcases mem_validate.mp hi with hm | hcy | how
    · obtain ⟨c, hc, r, hr, hp, heq2⟩ := mem_missingInterfaceIssues.mp hm
      have hIr : I = r := congrArg DependencyIssue.interface heq2
      subst hIr
      exact hp ((buildInterfaceProviders_keys comps I).mpr ⟨c', hc', hic⟩)
    · obtain ⟨n, hn⟩ := mem_check_circular hcy
      exact absurd hn (unresolvedIssue_ne_cycleIssue _ _ _)
    · obtain ⟨e, _, _, hn⟩ := mem_check_interface_ownership.mp how
      exact absurd hn (unresolvedIssue_ne_ownershipIssue _ _ _ _)

/-- Witness for C6: a single component requiring an interface nobody
provides receives exactly the unresolved-interface error issue. -/
theorem c6_unresolved_reports_witness :
    ∃ i ∈ validate_interface_compatibility
        [{ name := "W", agent_type := "w",
           interfaces_required := ["missing.h"] }],
      i = unresolvedIssue "W" "missing.h" :=
  ((c6_unresolved_reports
      [{ name := "W", agent_type := "w",
         interfaces_required := ["missing.h"] }]
      (by decide)
      { name := "W", agent_type := "w",
        interfaces_required := ["missing.h"] }
      (by decide) "missing.h").1).mpr ⟨by decide, by decide⟩

/-- Claim C10: every issue produced by the Validator or built from the
Differ's breaking changes has severity `error` or `warning`; no check
ever emits an `info` issue, so the info count of the aggregated run
output is zero. -/
theorem c10_no_info_issues (comps : List AgentComponent)
    (cn intf fp : String) (msgs : List String) :
    (∀ i ∈ mainIssues comps (changeIssuesOf cn intf fp msgs),
      i.severity = "error" ∨ i.severity = "warning")
    ∧ (mainIssues comps (changeIssuesOf cn intf fp msgs)).countP
        (fun i => i.severity == "info") = 0 := by
  have hmain : ∀ i ∈ mainIssues comps (changeIssuesOf cn intf fp msgs),
      i.severity = "error" ∨ i.severity = "warning" := by
    intro i hi
    rcases List.mem_append.mp hi with hv | hch
    · rcases mem_validate.mp hv with hm | hcy | how
      · obtain ⟨c, _, r, _, _, rfl⟩ := mem_missingInterfaceIssues.mp hm
        exact Or.inl rfl
      · obtain ⟨n, rfl⟩ := mem_check_circular hcy
        exact Or.inl rfl
      · obtain ⟨e, _, _, rfl⟩ := mem_check_interface_ownership.mp how
        by_cases hcrit : isCriticalName e.1 = true
        · exact Or.inl (by simp [ownershipIssue, hcrit])
        · simp only [Bool.not_eq_true] at hcrit
          exact Or.inr (by simp [ownershipIssue, hcrit])
    · obtain ⟨m, _, rfl⟩ := List.mem_map.mp hch
      exact Or.inl rfl
  refine ⟨hmain, ?_⟩
  rw [List.countP_eq_zero]
  intro i hi
  rcases hmain i hi with h | h <;> simp [h]

/-- Witness for C10: the single Differ-derived issue of an empty-component
run has severity `error` (hence not `info`). -/
theorem c10_no_info_issues_witness :
    (⟨"error", "k", "i.h", "m", some "f", none⟩ : DependencyIssue).severity
        = "error"
    ∨ (⟨"error", "k", "i.h", "m", some "f", none⟩
        : DependencyIssue).severity = "warning" :=
  (c10_no_info_issues [] "k" "i.h" "f" ["m"]).1 _ (by decide)
